import Mathlib

/-!
Verification of the orchestration core of `x4build` (src/x4build.mjs, with the
`Timer` class of the later revision) against its natural-language specification.

The JavaScript source is shallowly embedded: the mutable module-level variables
of each section (HMR hub, monitor/process supervisor, static server) become
fields of explicit state structures, each event handler becomes a state
transition function, and `setTimeout`/`clearTimeout` pairs become an explicit
`pending` slot that a later `fire` step consumes.
-/

namespace X4Build

/-! ## Node `path.extname`

Embedding of Node's `path.extname`: the extension is the substring of the last
path component from its last `.` to the end; a `.` at position 0 of the
component (dotfile) does not count, and a component without a later `.` has
extension `""`. -/

/-- Index of the last occurrence of `.` in a list of characters, if any. -/
def lastDot : List Char → Option Nat
  | [] => none
  | c :: rest =>
    match lastDot rest with
    | some i => some (i + 1)
    | none => if c = '.' then some 0 else none

/-- Characters of the reversed input up to (excluding) the first `/`. -/
def takeUntilSlash : List Char → List Char
  | [] => []
  | c :: rest => if c = '/' then [] else c :: takeUntilSlash rest

/-- Characters of the last `/`-separated component of a path (Node
`path.basename`, without suffix stripping). -/
def basenameChars (l : List Char) : List Char :=
  (takeUntilSlash l.reverse).reverse

/-- Node `path.extname`. -/
def extname (s : String) : String :=
  let b := basenameChars s.toList
  match lastDot b with
  | none => ""
  | some 0 => ""
  | some i => String.mk (b.drop i)

/-! ## Live Reload Hub (the `hmr` section of src/x4build.mjs, lines 472-550)

Module state: `isReady` (set by the watcher's `ready` event), `clients` (the
array pushed by the `upgrade` listener and rebound by `ws.onclose`), the single
shared `waitTimeout` of `send` (here `pending`: the one `(client, message)`
closure waiting to run), and the log of messages actually delivered to clients
(`delivered`), appended when the pending timeout runs. -/

/-- The closed message vocabulary of the websocket protocol. -/
inductive Msg
  | connected
  | reload
  | refreshcss
  deriving DecidableEq, Repr

/-- State of the HMR section. Clients are identified by numeric ids
(JS object identity). -/
structure HmrState where
  isReady : Bool
  clients : List Nat
  pending : Option (Nat × Msg)
  delivered : List (Nat × Msg)
  deriving DecidableEq, Repr

/-- Initial state of the HMR section: not ready, no clients, no pending
timeout, nothing delivered. -/
def hmrInit : HmrState := ⟨false, [], none, []⟩

/-- `send(client, ...args)` (lines 487-495): clears the single shared
`waitTimeout` and schedules a new 2000 ms timeout that will send `msg` to
`client`. The whole effect on the state is to replace the pending send. -/
def send (st : HmrState) (client : Nat) (msg : Msg) : HmrState :=
  { st with pending := some (client, msg) }

/-- The shared `waitTimeout` elapsing with no further `send`: the scheduled
closure runs, delivering the captured message to the captured client. -/
def timerFire (st : HmrState) : HmrState :=
  match st.pending with
  | none => st
  | some pm => { st with pending := none, delivered := st.delivered ++ [pm] }

/-- The extension set tested by `handleChange` (line 523). -/
def cssExts : List String := [".css", ".jpg", ".png", ".svg", ".ttf", ".otf"]

/-- `cssChange` of `handleChange`: the changed path's extension is in the
cosmetic set. -/
def isCssChange (changePath : String) : Bool :=
  cssExts.contains (extname changePath)

/-- `handleChange(changePath)` of the HMR section (lines 517-534): return
early unless ready, classify this one path, then `clients.forEach` calling
`send` for each client with the chosen message. -/
def handleChange (st : HmrState) (changePath : String) : HmrState :=
  if !st.isReady then st
  else
    let msg := if isCssChange changePath then Msg.refreshcss else Msg.reload
    st.clients.foldl (fun s c => send s c msg) st

/-- The `upgrade` listener (lines 497-513): the new websocket's `onopen`
sends `connected` through `send`, and the socket is pushed onto `clients`. -/
def clientConnect (st : HmrState) (id : Nat) : HmrState :=
  let st := send st id Msg.connected
  { st with clients := st.clients ++ [id] }

/-- `ws.onclose` (lines 506-510): rebind `clients` to a fresh filtered array
without the closed socket. The pending timeout is not touched. -/
def clientClose (st : HmrState) (id : Nat) : HmrState :=
  { st with clients := st.clients.filter (fun x => x ≠ id) }

/-- Events that drive the HMR section on the event loop. -/
inductive HmrEv
  | connect (id : Nat)
  | close (id : Nat)
  | ready
  | change (p : String)
  | fire
  deriving Repr

/-- One event-loop step of the HMR section. `ready` is the watcher's ready
callback (line 542). -/
def hmrStep (st : HmrState) : HmrEv → HmrState
  | .connect id => clientConnect st id
  | .close id => clientClose st id
  | .ready => { st with isReady := true }
  | .change p => handleChange st p
  | .fire => timerFire st

/-- Run the HMR section from its initial state over a sequence of events. -/
def hmrRun (evs : List HmrEv) : HmrState :=
  evs.foldl hmrStep hmrInit

/-! ## Process Supervisor (the `monitor` section of src/x4build.mjs,
lines 388-452)

Module state: the `isReady` flag, the `updateTmo` debounce slot, the current
`proc` binding, and the orchestrator's global working directory (mutated by
`process.chdir`). Pids are allocated from a fresh counter; `kills` and
`spawned` log the `process.kill` and `spawn` calls made so far. -/

/-- A spawned child process as the supervisor sees it: its pid and its
`__destroyed` flag, set only by the exit/error handlers that close over
this very process object. -/
structure Proc where
  pid : Nat
  destroyed : Bool
  deriving DecidableEq, Repr

/-- State of the monitor section. -/
structure MonState where
  isReady : Bool
  pendingRestart : Bool
  current : Proc
  cwd : String
  nextPid : Nat
  kills : List Nat
  spawned : List Nat
  deriving DecidableEq, Repr

/-- `startProcess()` (lines 395-414): `process.chdir(outdir)`, then `spawn`
a fresh process whose `__destroyed` flag starts false, and return it. -/
def startProcess (outdir : String) (s : MonState) : MonState :=
  { s with
    cwd := outdir
    current := ⟨s.nextPid, false⟩
    nextPid := s.nextPid + 1
    spawned := s.spawned ++ [s.nextPid] }

/-- The `updateTmo` callback (lines 427-434): if the current process has not
set its `__destroyed` flag, SIGTERM it; then rebind `proc` to a fresh
`startProcess()` without waiting for the old process to die. -/
def restartFire (outdir : String) (s : MonState) : MonState :=
  let s1 := if s.current.destroyed then s else { s with kills := s.kills ++ [s.current.pid] }
  startProcess outdir { s1 with pendingRestart := false }

/-- The exit/error handlers installed by `startProcess` (lines 404-411): each
closes over its own `proc` object and sets that object's `__destroyed` flag.
A notification for a process that is no longer the supervisor's current
`proc` mutates only the stale, unreachable object, so the supervisor state is
untouched; no kill, spawn, or rebinding happens in either case. -/
def exitNotify (s : MonState) (pid : Nat) : MonState :=
  if s.current.pid = pid then { s with current := { s.current with destroyed := true } }
  else s

/-- `handleChange` of the monitor section (lines 418-435): return unless
ready; otherwise `clearTimeout` any pending `updateTmo` and `setTimeout` a
new one. -/
def monHandleChange (s : MonState) : MonState :=
  if !s.isReady then s else { s with pendingRestart := true }

/-- State of the `watch` section of the later revision
(src/unnamed/part_001, lines 657-694): the ready flag and the pending
`tmRebuild` debounce slot that triggers `ctx.rebuild()`. -/
structure WatchState where
  isReady : Bool
  pendingRebuild : Bool
  deriving DecidableEq, Repr

/-- `handleChange` of the watch section (src/unnamed/part_001, lines
669-678): return unless ready, else (re)start the rebuild debounce timer. -/
def watchHandleChange (w : WatchState) : WatchState :=
  if !w.isReady then w else { w with pendingRebuild := true }

/-! ## Debounce timers

The `Timer` class of src/unnamed/part_001 (lines 336-345) and the ad-hoc
`updateTmo`/`waitTimeout` patterns of src/x4build.mjs all follow the same
shape: `clearTimeout` any pending timeout, then `setTimeout(cb, W)`. We
model one such timer with explicit time: the state holds the deadline of the
pending timeout, if any, and the times at which the scheduled action actually
ran. -/

/-- State of one debounce timer. -/
structure Debounce where
  pending : Option Nat
  fires : List Nat
  deriving DecidableEq, Repr

/-- A notification at time `t` with quiet window `W`: a pending timeout whose
deadline has already elapsed (`deadline ≤ t`) has run its action by now, so
its firing is recorded; then any still-pending timeout is cleared and the
action is rescheduled `W` from now (`Timer.start`, or the
`clearTimeout`/`setTimeout` pair of `handleChange`/`send`). -/
def notifyAt (W t : Nat) (d : Debounce) : Debounce :=
  let d1 : Debounce :=
    match d.pending with
    | some deadline =>
      if deadline ≤ t then { pending := none, fires := d.fires ++ [deadline] } else d
    | none => d
  { d1 with pending := some (t + W) }

/-- End of the event sequence: a still-pending timeout eventually elapses and
its action runs at its deadline. -/
def flushDebounce (d : Debounce) : Debounce :=
  match d.pending with
  | some deadline => { pending := none, fires := d.fires ++ [deadline] }
  | none => d

/-- The times at which the debounced action fires, given notifications at the
listed (nondecreasing) times and quiet window `W`. -/
def fireTimes (W : Nat) (ts : List Nat) : List Nat :=
  (flushDebounce (ts.foldl (fun d t => notifyAt W t d) ⟨none, []⟩)).fires

/-! ## Static File Server (the `serve` section of src/x4build.mjs,
lines 553-633)

The filesystem is abstract: a map from canonical absolute paths (segment
lists from the root) to what `fs.statSync` reports there. -/

/-- What `fs.statSync` reports for a path: a regular file with its size, a
directory, or (by throwing) nothing. -/
inductive FileKind
  | file (size : Nat)
  | dir
  | absent
  deriving DecidableEq, Repr

/-- An abstract filesystem keyed by canonical absolute segment paths. -/
def FileSystem := List String → FileKind

/-- Split a path string on `/`. -/
def splitSlashAux : List Char → List Char → List String
  | cur, [] => [String.mk cur.reverse]
  | cur, c :: rest =>
    if c = '/' then String.mk cur.reverse :: splitSlashAux [] rest
    else splitSlashAux (c :: cur) rest

/-- Split a path string on `/` (Node's segment decomposition). -/
def splitSlash (s : String) : List String :=
  splitSlashAux [] s.toList

/-- The normalization Node's `path.join` performs on the concatenated
segments: empty and `.` segments vanish, `..` pops the previously kept
segment, and a `..` at the root of an absolute path vanishes. `acc` is the
reversed stack of segments kept so far. -/
def normSegsAux : List String → List String → List String
  | acc, [] => acc.reverse
  | acc, s :: rest =>
    if s = "" ∨ s = "." then normSegsAux acc rest
    else if s = ".." then normSegsAux acc.tail rest
    else normSegsAux (s :: acc) rest

/-- `path.join(outdir, relativePath)` (line 581): concatenate and normalize.
`outdir` is the already-absolute, already-normalized output root. -/
def joinPath (outdir : List String) (relativePath : String) : List String :=
  normSegsAux [] (outdir ++ splitSlash relativePath)

/-- `path.extname` of a segment-represented path. -/
def extnameSegs (p : List String) : String :=
  extname (p.getLastD "")

/-- The `mimes` table (lines 587-593). -/
def mimes : String → Option String
  | ".htm" => some "text/html"
  | ".html" => some "text/html"
  | ".css" => some "text/css"
  | ".js" => some "application/javascript"
  | ".json" => some "application/json"
  | _ => none

/-- An HTTP response as the handler shapes it: status, the two headers it may
set, and the path whose contents are streamed as the body (`none` for the
empty `res.end()` body). -/
structure Response where
  status : Nat
  contentLength : Option Nat
  contentType : Option String
  bodyPath : Option (List String)
  deriving DecidableEq, Repr

/-- Resolved target of a request (lines 574-581): the decoded pathname `/` is
rewritten to the default document `/index.html`, then joined under the
output root. -/
def resolvePath (outdir : List String) (urlPath : String) : List String :=
  joinPath outdir (if urlPath = "/" then "/index.html" else urlPath)

/-- The request handler `run` (lines 562-618) as a function of the abstract
filesystem, the output root, and the decoded URL pathname: resolve the
target, `statSync` it; a regular file is answered 200 with Content-Length
and a Content-Type from `mimes` when the extension has an entry (omitted
otherwise), streaming the file; anything else — `statSync` throwing on a
missing path, or a non-file — is answered 404 with an empty body. -/
def serve (fsys : FileSystem) (outdir : List String) (urlPath : String) : Response :=
  let absolutePath := resolvePath outdir urlPath
  match fsys absolutePath with
  | FileKind.file size =>
    { status := 200, contentLength := some size,
      contentType := mimes (extnameSegs absolutePath), bodyPath := some absolutePath }
  | _ => { status := 404, contentLength := none, contentType := none, bodyPath := none }

/-! ## Build completion (the `onRebuild` callback of src/x4build.mjs,
lines 334-344) -/

/-- Side effects the orchestrator can trigger when a watch-mode build cycle
completes. -/
inductive BuildAction
  | logFailure
  | logPostBuild
  | runPostBuild
  | notifyReload
  | restartProc
  deriving DecidableEq, Repr

/-- The `onRebuild` completion callback (lines 334-344): on a build error
only log the failure; on success run the configured post-build commands, if
any. Reload notification and process restart are not invoked from this
callback at all — they are driven by the output-directory watcher. -/
def onRebuild (error : Bool) (hasPostBuild : Bool) : List BuildAction :=
  if error then [BuildAction.logFailure]
  else if hasPostBuild then [BuildAction.logPostBuild, BuildAction.runPostBuild]
  else []

/-- A change batch as the HMR section consumes it: the `handleChange` calls
made for each changed path, in order. -/
def processBatch (st : HmrState) (paths : List String) : HmrState :=
  paths.foldl handleChange st

/-! ## Helper lemmas about the HMR fan-out -/

/-- Folding `send` over a nonempty client list leaves the state unchanged
except that the pending slot holds the last client's message: every earlier
`send` of the loop is cancelled by the next one. -/
theorem send_foldl (msg : Msg) (cs : List Nat) (c : Nat) (st : HmrState) :
    List.foldl (fun s k => send s k msg) st (cs ++ [c]) =
      { st with pending := some (c, msg) } := by
  induction cs generalizing st with
  | nil => rfl
  | cons a as ih =>
    show List.foldl (fun s k => send s k msg) (send st a msg) (as ++ [c]) = _
    rw [ih]
    rfl

/-- Folding `send` over any list never touches the client list. -/
theorem send_foldl_clients (msg : Msg) (l : List Nat) (st : HmrState) :
    (List.foldl (fun s k => send s k msg) st l).clients = st.clients := by
  induction l generalizing st with
  | nil => rfl
  | cons a as ih => exact ih (send st a msg)

/-- The pending slot after a fan-out depends only on the starting pending
slot, never on the client list of the state it starts from. -/
theorem send_foldl_pending (msg : Msg) (l : List Nat) (s1 s2 : HmrState)
    (h : s1.pending = s2.pending) :
    (List.foldl (fun s k => send s k msg) s1 l).pending =
      (List.foldl (fun s k => send s k msg) s2 l).pending := by
  induction l generalizing s1 s2 with
  | nil => exact h
  | cons a as ih => exact ih (send s1 a msg) (send s2 a msg) rfl

/-- `handleChange` on a ready state with a nonempty client list replaces the
pending slot with the last client and this path's classification. -/
theorem handleChange_ready (st : HmrState) (p : String) (c : Nat) (cs : List Nat)
    (hr : st.isReady = true) (hc : st.clients = cs ++ [c]) :
    handleChange st p =
      { st with pending := some (c, if isCssChange p then Msg.refreshcss else Msg.reload) } := by
  have h2 := send_foldl (if isCssChange p then Msg.refreshcss else Msg.reload) cs c st
  unfold handleChange
  rw [hr, hc]
  simpa [hr, hc] using h2

/-- A whole batch of `handleChange` calls on a ready state with a nonempty
client list nets out to the pending slot holding the last client and the
classification of the batch's last path. -/
theorem processBatch_last (st : HmrState) (paths : List String) (p : String)
    (c : Nat) (cs : List Nat) (hr : st.isReady = true) (hc : st.clients = cs ++ [c]) :
    processBatch st (paths ++ [p]) =
      { st with pending := some (c, if isCssChange p then Msg.refreshcss else Msg.reload) } := by
  induction paths generalizing st with
  | nil => exact handleChange_ready st p c cs hr hc
  | cons q qs ih =>
    show processBatch (handleChange st q) (qs ++ [p]) = _
    rw [handleChange_ready st q c cs hr hc]
    exact ih _ hr hc

/-! ## Claim theorems -/

/-- Claim C1, failing input for the code: two clients connect, the watcher
becomes ready, one change arrives, and the single shared `waitTimeout`
elapses. Because every `send` cancels the previously scheduled send — even
one aimed at a different client — client 2's `reload` is the only message
ever delivered: client 1, connected throughout, receives neither its
`connected` acknowledgement nor any batch notification, and client 2 never
receives `connected`. -/
theorem hmr_client_starved :
    (hmrRun [.connect 1, .connect 2, .ready, .change "app.js", .fire]).clients = [1, 2]
    ∧ (hmrRun [.connect 1, .connect 2, .ready, .change "app.js", .fire]).delivered
        = [(2, Msg.reload)]
    ∧ ((hmrRun [.connect 1, .connect 2, .ready, .change "app.js", .fire]).delivered.map
        Prod.fst) = [2] := by
  decide

/-- Claim C2, counterexample: the batch `[app.js, style.css]` is not
all-cosmetic, so the claim demands a `reload`; but the code classifies each
event separately and the debounced `send` keeps only the last event's
classification, so the delivered message is `refreshcss`. -/
theorem hmr_mixed_batch_refreshcss :
    (List.all ["app.js", "style.css"] isCssChange) = false
    ∧ (hmrRun [.connect 1, .ready, .change "app.js", .change "style.css", .fire]).delivered
        = [(1, Msg.refreshcss)] := by
  decide

/-- Claim C2 (amended): each change event is classified individually by its
own path's extension, and the notification delivered for a completed batch is
the classification of the batch's last event — `refreshcss` when that path's
extension is in the cosmetic set, `reload` otherwise — delivered to the last
client of the fan-out. -/
theorem hmr_batch_last_classification (st : HmrState) (paths : List String) (p : String)
    (c : Nat) (cs : List Nat) (hr : st.isReady = true) (hc : st.clients = cs ++ [c]) :
    (timerFire (processBatch st (paths ++ [p]))).delivered =
      st.delivered ++ [(c, if isCssChange p then Msg.refreshcss else Msg.reload)] := by
  rw [processBatch_last st paths p c cs hr hc]
  rfl

/-- Witness for C2's amended theorem at a concrete input: one client, batch
`[app.js, style.css]`, delivered message `refreshcss`. -/
theorem hmr_batch_last_classification_witness :
    (timerFire (processBatch ⟨true, [5], none, []⟩ ["app.js", "style.css"])).delivered
      = [(5, Msg.refreshcss)] := by
  have h := hmr_batch_last_classification ⟨true, [5], none, []⟩ ["app.js"] "style.css" 5 []
    rfl rfl
  exact h.trans (by decide)

/-- Claim C4: a qualifying restart firing on a state whose current process
P1 has fresh-allocated pid (every reachable state satisfies
`current.pid < nextPid`) sends P1 a SIGTERM exactly when P1 has not
self-reported exit, starts exactly one new process P2 (fresh pid, flag
clear) without waiting, and a later exit/error notification for P1 leaves
the post-restart state — P2 included — completely unchanged. -/
theorem supervisor_restart (outdir : String) (s : MonState)
    (hfresh : s.current.pid < s.nextPid) :
    ((restartFire outdir s).kills =
        if s.current.destroyed then s.kills else s.kills ++ [s.current.pid])
    ∧ (restartFire outdir s).spawned = s.spawned ++ [s.nextPid]
    ∧ (restartFire outdir s).current = ⟨s.nextPid, false⟩
    ∧ exitNotify (restartFire outdir s) s.current.pid = restartFire outdir s := by
  have hpid : (restartFire outdir s).current.pid = s.nextPid := by
    by_cases h : s.current.destroyed <;> simp [restartFire, startProcess, h]
  refine ⟨?_, ?_, ?_, ?_⟩
  · by_cases h : s.current.destroyed <;> simp [restartFire, startProcess, h]
  · by_cases h : s.current.destroyed <;> simp [restartFire, startProcess, h]
  · by_cases h : s.current.destroyed <;> simp [restartFire, startProcess, h]
  · unfold exitNotify
    rw [hpid, if_neg]
    omega

/-- Witness for C4 at a concrete input: P1 has pid 0 and is still running,
the restart kills pid 0, spawns pid 1, and a late exit notification for
pid 0 is a no-op. -/
theorem supervisor_restart_witness :
    (restartFire "/out" ⟨true, false, ⟨0, false⟩, "/", 1, [], [0]⟩).kills = [0]
    ∧ (restartFire "/out" ⟨true, false, ⟨0, false⟩, "/", 1, [], [0]⟩).current = ⟨1, false⟩
    ∧ exitNotify (restartFire "/out" ⟨true, false, ⟨0, false⟩, "/", 1, [], [0]⟩) 0
        = restartFire "/out" ⟨true, false, ⟨0, false⟩, "/", 1, [], [0]⟩ := by
  have h := supervisor_restart "/out" ⟨true, false, ⟨0, false⟩, "/", 1, [], [0]⟩ (by decide)
  exact ⟨h.1.trans (by decide), h.2.2.1, h.2.2.2⟩

/-- Claim C10: every start and every restart of the supervised process runs
`process.chdir(outdir)`, changing the orchestrator's own global working
directory to the build output directory; the other transitions of the
monitor section never change it back, so after the first supervised start
the whole tool's relative-path operations run from the output directory. -/
theorem chdir_on_start (outdir : String) (s : MonState) (pid : Nat) :
    (startProcess outdir s).cwd = outdir
    ∧ (restartFire outdir s).cwd = outdir
    ∧ (monHandleChange s).cwd = s.cwd
    ∧ (exitNotify s pid).cwd = s.cwd := by
  refine ⟨rfl, rfl, ?_, ?_⟩
  · unfold monHandleChange
    by_cases h : s.isReady <;> simp [h]
  · unfold exitNotify
    by_cases h : s.current.pid = pid <;> simp [h]

/-- Claim C8: a change event observed before the watcher's `ready` signal is
a no-op in every concern — the HMR hub schedules no notification, the
monitor schedules no restart, and the watch section schedules no rebuild:
each `handleChange` returns its state unchanged. -/
theorem pre_ready_suppressed (st : HmrState) (s : MonState) (w : WatchState) (p : String)
    (hst : st.isReady = false) (hs : s.isReady = false) (hw : w.isReady = false) :
    handleChange st p = st ∧ monHandleChange s = s ∧ watchHandleChange w = w := by
  refine ⟨?_, ?_, ?_⟩
  · unfold handleChange; rw [hst]; rfl
  · unfold monHandleChange; rw [hs]; rfl
  · unfold watchHandleChange; rw [hw]; rfl

/-- Witness for C8 at concrete inputs: the initial HMR state, a not-yet-ready
monitor state, and a not-yet-ready watch state all ignore a change event. -/
theorem pre_ready_suppressed_witness :
    handleChange hmrInit "app.js" = hmrInit
    ∧ monHandleChange ⟨false, false, ⟨0, false⟩, "/", 1, [], [0]⟩
        = ⟨false, false, ⟨0, false⟩, "/", 1, [], [0]⟩
    ∧ watchHandleChange ⟨false, false⟩ = ⟨false, false⟩ :=
  pre_ready_suppressed hmrInit ⟨false, false, ⟨0, false⟩, "/", 1, [], [0]⟩ ⟨false, false⟩
    "app.js" rfl rfl rfl

/-- Auxiliary induction for the debounce property: starting from a state with
a pending deadline `t + W` and firing log `fs`, notifications each arriving
less than `W` after the previous one keep cancelling and extending the
pending timeout, so the only firing is at `W` after the final notification. -/
theorem debounce_aux (W : Nat) (ts : List Nat) :
    ∀ (t : Nat) (fs : List Nat), List.Chain' (fun a b => b < a + W) (t :: ts) →
      (flushDebounce (ts.foldl (fun d u => notifyAt W u d) ⟨some (t + W), fs⟩)).fires
        = fs ++ [(t :: ts).getLast (List.cons_ne_nil t ts) + W] := by
  induction ts with
  | nil => intro t fs _; rfl
  | cons u us ih =>
    intro t fs hgap
    have h1 : u < t + W := (List.chain'_cons.mp hgap).1
    have h2 : List.Chain' (fun a b => b < a + W) (u :: us) := (List.chain'_cons.mp hgap).2
    have hstep : notifyAt W u ⟨some (t + W), fs⟩ = ⟨some (u + W), fs⟩ := by
      have hle : ¬ (t + W ≤ u) := by omega
      simp [notifyAt, hle]
    show (flushDebounce (us.foldl (fun d u => notifyAt W u d)
        (notifyAt W u ⟨some (t + W), fs⟩))).fires = _
    rw [hstep, ih u fs h2]
    rfl

/-- Claim C5: for a nonempty sequence of change events in which each event
arrives strictly less than the quiet window `W` after the previous one, the
debounced action fires exactly once, at the last event's timestamp plus `W`;
each event before the pending deadline extends the deadline instead of
stacking a second firing. -/
theorem debounce_single_fire (W : Nat) (ts : List Nat) (hne : ts ≠ [])
    (hgap : List.Chain' (fun a b => b < a + W) ts) :
    fireTimes W ts = [ts.getLast hne + W] := by
  match ts, hne with
  | t :: rest, _ =>
    show (flushDebounce (rest.foldl (fun d u => notifyAt W u d)
        (notifyAt W t ⟨none, []⟩))).fires = _
    have h0 : notifyAt W t ⟨none, []⟩ = ⟨some (t + W), []⟩ := rfl
    rw [h0]
    exact debounce_aux W rest t [] hgap

/-- Witness for C5 at a concrete input: three events at 0, 500 and 900 with
a 1000 ms window fire exactly once, at 1900. -/
theorem debounce_single_fire_witness : fireTimes 1000 [0, 500, 900] = [1900] := by
  have h := debounce_single_fire 1000 [0, 500, 900] (by decide)
    (by norm_num [List.chain'_cons, List.chain'_singleton])
  exact h.trans (by decide)

/-- A filesystem with one regular file at `/secret.txt` — outside the output
root `/out`. -/
def fsTraversal : FileSystem :=
  fun p => if p = ["secret.txt"] then FileKind.file 42 else FileKind.absent

/-- Claim C3, failing input for the code: with output root `/out`, the
traversal request `/../secret.txt` joins and normalizes to `/secret.txt`,
escapes the root (the resolved path does not extend `/out`), and is served
with status 200 streaming the outside file — the handler performs no
containment check. -/
theorem traversal_escapes_root :
    (serve fsTraversal ["out"] "/../secret.txt").status = 200
    ∧ (serve fsTraversal ["out"] "/../secret.txt").bodyPath = some ["secret.txt"]
    ∧ List.isPrefixOf ["out"] ["secret.txt"] = false := by
  decide

/-- Claim C6: the root path is answered exactly as the default document
`/index.html` would be; a resolved path that is a regular file is answered
200 with `Content-Length` set to the file's size and `Content-Type` looked
up in the fixed `mimes` table (absent when the table has no entry for the
extension), streaming that file; any other outcome — missing path or
directory — is answered 404 with no headers and an empty body. -/
theorem serve_request_spec (fsys : FileSystem) (outdir : List String) (urlPath : String) :
    (serve fsys outdir "/" = serve fsys outdir "/index.html")
    ∧ (∀ size, fsys (resolvePath outdir urlPath) = FileKind.file size →
        serve fsys outdir urlPath =
          { status := 200, contentLength := some size,
            contentType := mimes (extnameSegs (resolvePath outdir urlPath)),
            bodyPath := some (resolvePath outdir urlPath) })
    ∧ ((∀ size, fsys (resolvePath outdir urlPath) ≠ FileKind.file size) →
        serve fsys outdir urlPath =
          { status := 404, contentLength := none, contentType := none,
            bodyPath := none }) := by
  refine ⟨rfl, fun size h => ?_, fun h => ?_⟩
  · simp only [serve]
    rw [h]
  · simp only [serve]

/-- A filesystem with the default document `/out/index.html` present. -/
def fsDemo : FileSystem :=
  fun p => if p = ["out", "index.html"] then FileKind.file 5 else FileKind.absent

/-- Witness for C6 at a concrete input: requesting `/` with the default
document present serves `/out/index.html` as `text/html` with length 5. -/
theorem serve_request_spec_witness :
    serve fsDemo ["out"] "/" =
      { status := 200, contentLength := some 5, contentType := some "text/html",
        bodyPath := some ["out", "index.html"] } := by
  have h := (serve_request_spec fsDemo ["out"] "/").2.1 5 (by decide)
  exact h.trans (by decide)

/-- Claim C7: a watch-mode build cycle that completes with a bundler error
triggers only the failure log — the configured post-build commands do not
run; post-build commands appear in a cycle's actions only when the cycle
succeeded and commands are configured; and the completion callback never
triggers a reload notification or a process restart by itself. -/
theorem build_failure_skips_postbuild (e p : Bool) :
    (e = true → onRebuild e p = [BuildAction.logFailure])
    ∧ (BuildAction.runPostBuild ∈ onRebuild e p → e = false ∧ p = true)
    ∧ BuildAction.notifyReload ∉ onRebuild e p
    ∧ BuildAction.restartProc ∉ onRebuild e p := by
  cases e <;> cases p <;> decide

/-- Witness for C7 at concrete inputs: a failed cycle with post-build
configured runs nothing but the failure log, and a cycle that did run
post-build commands was a successful one. -/
theorem build_failure_skips_postbuild_witness :
    onRebuild true true = [BuildAction.logFailure] ∧ (false = false ∧ true = true) :=
  ⟨(build_failure_skips_postbuild true true).1 rfl,
   (build_failure_skips_postbuild false true).2.1 (by decide)⟩

/-- Claim C9: `ws.onclose` rebinds the client list to a fresh array without
the closed socket (so the closed client is gone and every other client is
kept), a fan-out that already captured a snapshot of the list schedules
exactly the same send whether or not the close has happened, and no
transition other than connect (push) and close (filter) ever changes the
client list — connect appends exactly the new client. -/
theorem client_set_snapshot (st : HmrState) (ws id : Nat) (p : String) (msg : Msg) :
    (clientClose st ws).clients = st.clients.filter (fun x => x ≠ ws)
    ∧ (∀ c, c ∈ st.clients → c ≠ ws → c ∈ (clientClose st ws).clients)
    ∧ ws ∉ (clientClose st ws).clients
    ∧ (∀ snapshot : List Nat,
        (snapshot.foldl (fun s k => send s k msg) (clientClose st ws)).pending
          = (snapshot.foldl (fun s k => send s k msg) st).pending)
    ∧ (handleChange st p).clients = st.clients
    ∧ (send st id msg).clients = st.clients
    ∧ (timerFire st).clients = st.clients
    ∧ (clientConnect st id).clients = st.clients ++ [id] := by
  refine ⟨rfl, ?_, ?_, ?_, ?_, rfl, ?_, rfl⟩
  · intro c hc hne
    simp [clientClose, List.mem_filter]
    exact ⟨hc, hne⟩
  · simp [clientClose, List.mem_filter]
  · intro snapshot
    exact send_foldl_pending msg snapshot _ _ rfl
  · unfold handleChange
    by_cases h : st.isReady
    · simp only [h]
      exact send_foldl_clients _ st.clients st
    · simp [h]
  · unfold timerFire
    cases st.pending <;> rfl

/-- Witness for C9 at a concrete input: closing client 2 of `[1, 2, 3]`
leaves `[1, 3]`, and client 1 is still present. -/
theorem client_set_snapshot_witness :
    (clientClose ⟨true, [1, 2, 3], none, []⟩ 2).clients = [1, 3]
    ∧ (1 ∈ (clientClose ⟨true, [1, 2, 3], none, []⟩ 2).clients) := by
  have h := client_set_snapshot ⟨true, [1, 2, 3], none, []⟩ 2 0 "x" Msg.reload
  exact ⟨h.1.trans (by decide), h.2.1 1 (by decide) (by decide)⟩

end X4Build
